import Mathlib

/-!
Verification of the `trace` package of kolosys/lumen: W3C trace-context
formatting/parsing, propagator extraction, sampling strategies, and the
span lifecycle.  Go code is shallowly embedded: byte arrays become lists
of `Fin 256`, machine integers become `Nat` with explicit `% 2^w` where
wrap-around matters, `float64` ratios are modelled as exact rationals
(every concrete ratio used in a theorem below is exactly representable in
binary floating point, so the idealisation is faithful at those points),
and the side effects of the export pipeline become an explicit action
list.
-/

set_option maxRecDepth 4000

namespace Lumen

/-- Byte values, as stored in Go `[16]byte` / `[8]byte` arrays. -/
abbrev Byte := Fin 256

/-- Hex digit characters, mirroring the lowercase digit table used by Go
`encoding/hex` (`"0123456789abcdef"`).  Only applied to values below 16. -/
def hexDigitChar (n : Nat) : Char :=
  Char.ofNat (if n < 10 then 48 + n else 97 + (n - 10))

/-- Two lowercase hex characters for one byte, as `hex.EncodeToString`
produces for each byte (high nibble then low nibble). -/
def encodeByte (b : Byte) : List Char :=
  [hexDigitChar (b.val / 16), hexDigitChar (b.val % 16)]

/-- Lowercase hex encoding of a byte slice (`hex.EncodeToString`). -/
def hexEncode : List Byte → List Char
  | [] => []
  | b :: rest => encodeByte b ++ hexEncode rest

/-- Value of one hex character, mirroring Go `encoding/hex.fromHexChar`,
which accepts `0-9`, `a-f` and `A-F`.  The `% 16` keeps the `Fin`
construction simple; inside each branch the value is already below 16. -/
def hexVal (c : Char) : Option (Fin 16) :=
  if 48 ≤ c.toNat ∧ c.toNat ≤ 57 then
    some ⟨(c.toNat - 48) % 16, Nat.mod_lt _ (by norm_num)⟩
  else if 97 ≤ c.toNat ∧ c.toNat ≤ 102 then
    some ⟨(c.toNat - 87) % 16, Nat.mod_lt _ (by norm_num)⟩
  else if 65 ≤ c.toNat ∧ c.toNat ≤ 70 then
    some ⟨(c.toNat - 55) % 16, Nat.mod_lt _ (by norm_num)⟩
  else none

/-- Hex decoding of a string into bytes (`hex.DecodeString`): fails on an
odd-length input or any non-hex character, otherwise combines the
characters pairwise into bytes. -/
def decodeHex : List Char → Option (List Byte)
  | [] => some []
  | [_] => none
  | c1 :: c2 :: rest =>
    match hexVal c1, hexVal c2, decodeHex rest with
    | some hi, some lo, some bs =>
      some (⟨16 * hi.val + lo.val, by
        have h1 := hi.isLt
        have h2 := lo.isLt
        omega⟩ :: bs)
    | _, _, _ => none

/-- Character class of the anchored regular expression in
`trace/context.go`: a lowercase hex digit `[0-9a-f]`. -/
def isLowerHexDigit (c : Char) : Bool :=
  (decide (48 ≤ c.toNat) && decide (c.toNat ≤ 57)) ||
  (decide (97 ≤ c.toNat) && decide (c.toNat ≤ 102))

/-- ASCII/Latin-1 lowering of one character, the effect of Go
`strings.ToLower` on the character range relevant to the traceparent
grammar (which is pure ASCII). -/
def goToLower (c : Char) : Char :=
  if 65 ≤ c.toNat ∧ c.toNat ≤ 90 then Char.ofNat (c.toNat + 32) else c

/-- White space as trimmed by Go `strings.TrimSpace` on the Latin-1
range: space, `\t`, `\n`, vertical tab, form feed, `\r`, NEL and NBSP. -/
def isGoSpace (c : Char) : Bool :=
  (c.toNat == 32) || (c.toNat == 9) || (c.toNat == 10) || (c.toNat == 11) ||
  (c.toNat == 12) || (c.toNat == 13) || (c.toNat == 133) || (c.toNat == 160)

/-- Go `strings.TrimSpace`: drop white space from both ends. -/
def trimSpace (l : List Char) : List Char :=
  ((l.dropWhile isGoSpace).reverse.dropWhile isGoSpace).reverse

/-- Normalisation performed by `ParseW3CTraceparent` before matching:
`strings.TrimSpace(strings.ToLower(header))`. -/
def normalizeHeader (l : List Char) : List Char :=
  trimSpace (l.map goToLower)

-- Basic lemmas about the hex machinery.

theorem hexVal_hexDigitChar : ∀ v : Fin 16,
    hexVal (hexDigitChar v.val) = some v := by decide

theorem isLowerHexDigit_hexDigitChar : ∀ v : Fin 16,
    isLowerHexDigit (hexDigitChar v.val) = true := by decide

theorem hexEncode_length (l : List Byte) : (hexEncode l).length = 2 * l.length := by
  induction l with
  | nil => rfl
  | cons b rest ih => simp [hexEncode, encodeByte, ih]; omega

theorem decodeHex_hexEncode (l : List Byte) : decodeHex (hexEncode l) = some l := by
  induction l with
  | nil => rfl
  | cons b rest ih =>
    have hhi := hexVal_hexDigitChar ⟨b.val / 16, by have := b.isLt; omega⟩
    have hlo := hexVal_hexDigitChar ⟨b.val % 16, Nat.mod_lt _ (by norm_num)⟩
    have hdm : (16 * (b.val / 16) + b.val % 16) = b.val := Nat.div_add_mod b.val 16
    simp only [hexEncode, encodeByte, List.cons_append, List.nil_append,
      List.append_eq, decodeHex]
    rw [hhi, hlo, ih]
    simp [Fin.ext_iff, hdm]

theorem mem_hexEncode {c : Char} {l : List Byte} (h : c ∈ hexEncode l) :
    isLowerHexDigit c = true := by
  induction l with
  | nil => simp [hexEncode] at h
  | cons b rest ih =>
    simp only [hexEncode, encodeByte, List.cons_append, List.nil_append, List.mem_cons] at h
    rcases h with h | h | h
    · subst h; exact isLowerHexDigit_hexDigitChar ⟨b.val / 16, by have := b.isLt; omega⟩
    · subst h; exact isLowerHexDigit_hexDigitChar ⟨b.val % 16, Nat.mod_lt _ (by norm_num)⟩
    · exact ih h

theorem hexVal_isSome_of_hex {c : Char} (h : isLowerHexDigit c = true) :
    (hexVal c).isSome = true := by
  unfold isLowerHexDigit at h
  unfold hexVal
  simp only [Bool.or_eq_true, Bool.and_eq_true, decide_eq_true_eq] at h
  split
  · rfl
  · split
    · rfl
    · split
      · rfl
      · omega

theorem goToLower_of_hex {c : Char} (h : isLowerHexDigit c = true) :
    goToLower c = c := by
  unfold isLowerHexDigit at h
  unfold goToLower
  simp only [Bool.or_eq_true, Bool.and_eq_true, decide_eq_true_eq] at h
  split
  · omega
  · rfl

theorem not_space_of_hex {c : Char} (h : isLowerHexDigit c = true) :
    isGoSpace c = false := by
  unfold isLowerHexDigit at h
  unfold isGoSpace
  simp only [Bool.or_eq_true, Bool.and_eq_true, decide_eq_true_eq] at h
  simp only [Bool.or_eq_false_iff, beq_eq_false_iff_ne, ne_eq]
  omega

theorem dropWhile_eq_self {p : Char → Bool} {l : List Char}
    (h : ∀ c ∈ l, p c = false) : l.dropWhile p = l := by
  cases l with
  | nil => rfl
  | cons a l => simp [List.dropWhile_cons, h a (by simp)]

theorem trimSpace_eq_self {l : List Char} (h : ∀ c ∈ l, isGoSpace c = false) :
    trimSpace l = l := by
  unfold trimSpace
  rw [dropWhile_eq_self h, dropWhile_eq_self (by
    intro c hc
    exact h c (List.mem_reverse.mp hc)), List.reverse_reverse]

theorem map_eq_self {f : Char → Char} {l : List Char}
    (h : ∀ c ∈ l, f c = c) : l.map f = l := by
  induction l with
  | nil => rfl
  | cons a l ih =>
    simp only [List.map_cons, h a (by simp), List.cons.injEq, true_and]
    exact ih (fun c hc => h c (by simp [hc]))

/-- Go `trace.TraceID`, a `[16]byte` array. -/
def TraceID := { l : List Byte // l.length = 16 }

instance : DecidableEq TraceID := Subtype.instDecidableEq

/-- Go `trace.SpanID`, an `[8]byte` array. -/
def SpanID := { l : List Byte // l.length = 8 }

instance : DecidableEq SpanID := Subtype.instDecidableEq

/-- All-zero trace ID, the zero value of `TraceID`. -/
def TraceID.zero : TraceID := ⟨List.replicate 16 0, by simp⟩

/-- All-zero span ID, the zero value of `SpanID`. -/
def SpanID.zero : SpanID := ⟨List.replicate 8 0, by simp⟩

/-- Go `TraceID.IsValid`: true iff the value differs from the zero array. -/
def TraceID.isValid (t : TraceID) : Bool := decide (t ≠ TraceID.zero)

/-- Go `SpanID.IsValid`: true iff the value differs from the zero array. -/
def SpanID.isValid (s : SpanID) : Bool := decide (s ≠ SpanID.zero)

/-- Go `TraceID.String`: lowercase hex, 32 characters. -/
def TraceID.toHex (t : TraceID) : List Char := hexEncode t.val

/-- Go `SpanID.String`: lowercase hex, 16 characters. -/
def SpanID.toHex (s : SpanID) : List Char := hexEncode s.val

/-- Error values of `trace/errors.go` that the parsing functions return. -/
inductive TraceError where
  | invalidTraceID
  | invalidSpanID
  | invalidContext
deriving DecidableEq

/-- Go `trace.TraceContext`: W3C trace-context propagation data. -/
structure TraceContext where
  traceID : TraceID
  spanID : SpanID
  traceFlags : Byte
  traceState : String
deriving DecidableEq

/-- Go `TraceContext.IsSampled`: bit 0 of the flags byte. -/
def TraceContext.isSampled (tc : TraceContext) : Bool :=
  decide (tc.traceFlags.val &&& 1 ≠ 0)

/-- Matcher for the anchored regular expression
`^([0-9a-f]\x7b2\x7d)-([0-9a-f]\x7b32\x7d)-([0-9a-f]\x7b16\x7d)-([0-9a-f]\x7b2\x7d)$`
of `trace/context.go`.  Because every piece of the pattern has a fixed
width, a string matches exactly when it has length 55, carries `-` at
offsets 2, 35 and 52, and is lowercase hex everywhere else; the four
capture groups are the corresponding segments. -/
def traceparentSplit (s : List Char) :
    Option (List Char × List Char × List Char × List Char) :=
  if s.length = 55 ∧ (s.drop 2).take 1 = ['-'] ∧ (s.drop 35).take 1 = ['-'] ∧
      (s.drop 52).take 1 = ['-'] ∧
      (s.take 2 ++ (s.drop 3).take 32 ++ (s.drop 36).take 16 ++ s.drop 53).all
        isLowerHexDigit then
    some (s.take 2, (s.drop 3).take 32, (s.drop 36).take 16, s.drop 53)
  else none

/-- Go `trace.ParseW3CTraceparent` on the character list of the header:
lower-case and trim, match the anchored regex, require version `00`,
then hex-decode the three remaining groups with their length checks.
The returned context has an empty trace state (the caller fills it). -/
def parseW3CTraceparentChars (l : List Char) : Except TraceError TraceContext :=
  match traceparentSplit (normalizeHeader l) with
  | none => .error .invalidContext
  | some (g1, g2, g3, g4) =>
    if g1 ≠ ['0', '0'] then .error .invalidContext
    else
      match decodeHex g2 with
      | none => .error .invalidTraceID
      | some tb =>
        if htb : tb.length = 16 then
          match decodeHex g3 with
          | none => .error .invalidSpanID
          | some sb =>
            if hsb : sb.length = 8 then
              match decodeHex g4 with
              | none => .error .invalidContext
              | some fb =>
                if fb.length = 1 then
                  .ok ⟨⟨tb, htb⟩, ⟨sb, hsb⟩, fb.headD 0, ""⟩
                else .error .invalidContext
            else .error .invalidSpanID
        else .error .invalidTraceID

/-- Go `trace.ParseW3CTraceparent` on a `string`. -/
def parseW3CTraceparent (s : String) : Except TraceError TraceContext :=
  parseW3CTraceparentChars s.data

/-- Go `TraceContext.FormatW3CTraceparent`: the result of
`fmt.Sprintf` with format `00-%s-%s-%02x` applied to the hex renderings
of the trace ID and span ID and to the flags byte (`%02x` of a byte is
exactly its two lowercase hex digits). -/
def TraceContext.formatW3CTraceparent (tc : TraceContext) : String :=
  ⟨'0' :: '0' :: '-' ::
    (tc.traceID.toHex ++ '-' :: (tc.spanID.toHex ++ '-' :: encodeByte tc.traceFlags))⟩

/-- Go `trace.SamplingParams`: read-only snapshot given to a sampler. -/
structure SamplingParams where
  traceID : TraceID
  name : String
  parentID : SpanID
deriving DecidableEq

/-- The 32-bit FNV-1a hash of `hash/fnv` (`New32a` + `Write` + `Sum32`):
start from the offset basis 2166136261 and, for each byte, xor it in and
multiply by the prime 16777619, keeping 32 bits. -/
def fnv1a32 (bytes : List Byte) : Nat :=
  bytes.foldl (fun h b => ((h ^^^ b.val) * 16777619) % 4294967296) 2166136261

/-- Clamping performed by both ratio-sampler constructors: ratios below 0
become 0 and ratios above 1 become 1. -/
def clamp01 (r : ℚ) : ℚ := if r < 0 then 0 else if r > 1 then 1 else r

/-- Go `trace.TraceIDRatioSampler`: stores only the precomputed
threshold. -/
structure TraceIDRatioSampler where
  threshold : Nat
deriving DecidableEq

/-- Go `trace.TraceIDRatioSample`: clamp the ratio to `[0,1]` and take
`uint32(ratio * 0xFFFFFFFF)`, i.e. the ratio times `2^32 - 1`, truncated
toward zero.  The `float64` multiplication is modelled as exact rational
arithmetic; at every ratio used concretely below the product is exactly
representable, so the model agrees with the Go value there. -/
def traceIDRatioSample (r : ℚ) : TraceIDRatioSampler :=
  ⟨(⌊clamp01 r * 4294967295⌋).toNat⟩

/-- Go `TraceIDRatioSampler.ShouldSample`: hash the 16 trace-ID bytes
with FNV-1a and compare against the stored threshold. -/
def TraceIDRatioSampler.shouldSample (s : TraceIDRatioSampler)
    (params : SamplingParams) : Bool :=
  decide (fnv1a32 params.traceID.val < s.threshold)

/-- Threshold stored by Go `trace.RatioSample`: `uint32(ratio * 100)`
after clamping, i.e. the ratio times 100 truncated toward zero (again
with `float64` arithmetic modelled as exact rationals). -/
def ratioThreshold (r : ℚ) : Nat := (⌊clamp01 r * 100⌋).toNat

/-- Value of the shared `uint64` counter of a `RatioSampler` after `k`
calls to `ShouldSample` on a fresh sampler: each call runs
`counter.Add(1)`, which wraps at `2^64`. -/
def ratioCounterAfter : Nat → Nat
  | 0 => 0
  | k + 1 => (ratioCounterAfter k + 1) % 18446744073709551616

/-- Result of the k-th call (`k ≥ 1`) to `RatioSampler.ShouldSample` on a
fresh sampler with the given threshold: the call observes the counter
value after its own `Add(1)` and returns `uint32(count % 100) < threshold`. -/
def ratioKthShouldSample (threshold k : Nat) : Bool :=
  decide (ratioCounterAfter k % 100 < threshold)

/-- Pieces of Go `trace.Attribute` values (`any`-typed); the claims only
need attribute records to be comparable, so a small dynamic type
suffices. -/
inductive AttrValue where
  | str : String → AttrValue
  | int : Int → AttrValue
  | boolVal : Bool → AttrValue
deriving DecidableEq

/-- Go `trace.Attribute`: a key plus a dynamically-typed value. -/
structure Attribute where
  key : String
  value : AttrValue
deriving DecidableEq

/-- Go `trace.Event`: a named, timestamped record with attributes. -/
structure Event where
  name : String
  timestamp : Nat
  attributes : List Attribute
deriving DecidableEq

/-- Go `trace.SpanStatus`. -/
inductive SpanStatus where
  | unset
  | ok
  | error
deriving DecidableEq

/-- Go `trace.Span`.  The `tracer *Tracer` pointer is abstracted to the
Boolean `hasTracer` (whether the pointer is non-nil), wall-clock times
become naturals, and the `atomic.Bool` ended flag becomes `ended`; the
per-span mutex only serialises access and has no sequential effect. -/
structure Span where
  hasTracer : Bool
  traceID : TraceID
  spanID : SpanID
  parentID : SpanID
  name : String
  startTime : Nat
  endTime : Nat
  status : SpanStatus
  statusMsg : String
  attributes : List Attribute
  events : List Event
  sampled : Bool
  noop : Bool
  ended : Bool
deriving DecidableEq

/-- The span value `&Span\x7bnoop: true\x7d` that a closed tracer's
`Start` returns: every other field is the Go zero value. -/
def noopSpan : Span :=
  { hasTracer := false, traceID := .zero, spanID := .zero, parentID := .zero,
    name := "", startTime := 0, endTime := 0, status := .unset, statusMsg := "",
    attributes := [], events := [], sampled := false, noop := true, ended := false }

/-- Go `Span.reset`: every field back to its zero/empty form (attribute
and event buffers are truncated, the tracer pointer is cleared), so the
result does not depend on the previous tenant. -/
def Span.reset (_s : Span) : Span := { noopSpan with noop := false }

/-- Go `Span.SetAttribute`: append one attribute unless the span is
no-op or already ended. -/
def Span.setAttribute (s : Span) (key : String) (value : AttrValue) : Span :=
  if s.noop || s.ended then s
  else { s with attributes := s.attributes ++ [⟨key, value⟩] }

/-- Go `Span.SetAttributes`: append the attributes unless no-op/ended. -/
def Span.setAttributes (s : Span) (attrs : List Attribute) : Span :=
  if s.noop || s.ended then s
  else { s with attributes := s.attributes ++ attrs }

/-- Go `Span.AddEvent`: append a timestamped event unless no-op/ended. -/
def Span.addEvent (s : Span) (name : String) (attrs : List Attribute)
    (now : Nat) : Span :=
  if s.noop || s.ended then s
  else { s with events := s.events ++ [⟨name, now, attrs⟩] }

/-- Go `Span.SetStatus`: overwrite status and message unless no-op/ended. -/
def Span.setStatus (s : Span) (status : SpanStatus) (msg : String) : Span :=
  if s.noop || s.ended then s
  else { s with status := status, statusMsg := msg }

/-- Go `Span.RecordError`: nothing for a nil error; otherwise, unless
no-op/ended, add an `exception` event and set error status. -/
def Span.recordError (s : Span) (err : Option String) (now : Nat) : Span :=
  match err with
  | none => s
  | some msg =>
    if s.noop || s.ended then s
    else (s.addEvent "exception" [⟨"exception.message", .str msg⟩] now).setStatus
      .error msg

/-- Observable effects of ending a span on the tracer's export pipeline. -/
inductive PipelineAction where
  | exported
  | released
deriving DecidableEq

/-- Go `Span.End` together with the pipeline it triggers.  `End` returns
immediately for a no-op span and for a span whose ended flag was already
set (the compare-and-swap fails); otherwise it stamps the end time.  An
unsampled span, or one without a tracer, stops there.  A sampled span is
handed to `Tracer.exportSpan`; both the synchronous path and the
asynchronous worker (`asyncWorker`) call `Exporter.Export` and then
`releaseSpan` (reset + pool put), so either way the pipeline performs one
export followed by one pool release, returned here as the action list. -/
def Span.endSpan (s : Span) (now : Nat) : Span × List PipelineAction :=
  if s.noop || s.ended then (s, [])
  else
    let s1 := { s with ended := true, endTime := now }
    if !s.sampled || !s.hasTracer then (s1, [])
    else (s1, [.exported, .released])

/-- Options of `trace.WithAttributes` and `trace.WithStartTime`, the two
`SpanOption` constructors the package exports. -/
inductive SpanOption where
  | withAttributes : List Attribute → SpanOption
  | withStartTime : Nat → SpanOption

/-- Application of one span option, as in `options.go`. -/
def SpanOption.apply (o : SpanOption) (s : Span) : Span :=
  match o with
  | .withAttributes attrs => { s with attributes := s.attributes ++ attrs }
  | .withStartTime t => { s with startTime := t }

/-- Trace-ID/parent assignment from an ambient `TraceContext`, the
`else if tc != nil && tc.TraceID.IsValid()` arm of `Tracer.Start`
(falling back to the freshly generated trace ID). -/
def assignFromTC (s1 : Span) (ctxTC : Option TraceContext) (genT : TraceID) : Span :=
  match ctxTC with
  | some tc =>
    if tc.traceID.isValid then { s1 with traceID := tc.traceID, parentID := tc.spanID }
    else { s1 with traceID := genT }
  | none => { s1 with traceID := genT }

/-- Go `Tracer.Start`.  The ambient context is represented by the two
values the context lookups can produce (`SpanFromContext`,
`TraceContextFromContext`); the span drawn from the pool arrives as
`pooled` and is reset at checkout (`getSpan`); the two
cryptographically-random identifiers that `generateTraceID` /
`generateSpanID` would produce are passed in as `genT` / `genS`; the
sampler is its decision function.  This definition covers the
identifier-resolution phase: reset the pooled span at checkout, tag it
with the tracer, name and start time, inherit the trace/parent IDs from
the ambient span when its trace ID is valid, else from the ambient
trace context when valid, else take the generated trace ID; a fresh span
ID is always assigned. -/
def Tracer.startSpanBase (ctxSpan : Option Span) (ctxTC : Option TraceContext)
    (name : String) (pooled : Span) (genT : TraceID) (genS : SpanID)
    (now : Nat) : Span :=
  let s1 := { pooled.reset with hasTracer := true, name := name, startTime := now }
  let s2 :=
    match ctxSpan with
    | some parent =>
      if parent.traceID.isValid then
        { s1 with traceID := parent.traceID, parentID := parent.spanID }
      else assignFromTC s1 ctxTC genT
    | none => assignFromTC s1 ctxTC genT
  { s2 with spanID := genS }

/-- Go `Tracer.Start`: a closed tracer returns the no-op span without
touching the pool; otherwise the span options are applied to the
resolved span and the sampler decides, exactly once, from the trace ID,
name and parent ID. -/
def Tracer.start (closed : Bool) (sampler : SamplingParams → Bool)
    (ctxSpan : Option Span) (ctxTC : Option TraceContext) (name : String)
    (pooled : Span) (genT : TraceID) (genS : SpanID) (now : Nat)
    (opts : List SpanOption) : Span :=
  if closed then noopSpan
  else
    let s4 := opts.foldl (fun s o => o.apply s)
      (Tracer.startSpanBase ctxSpan ctxTC name pooled genT genS now)
    { s4 with sampled := sampler ⟨s4.traceID, name, s4.parentID⟩ }

/-- Ambient propagation context: the two context values the trace
package reads and writes (`spanContextKey`, `traceContextKey`). -/
structure Ctx where
  span : Option Span
  traceCtx : Option TraceContext
deriving DecidableEq

/-- Go `W3CPropagator.Extract`.  A carrier is read only through `Get`,
so it is modelled as the map from header names to values.  An absent or
empty `traceparent` header, or one that fails to parse, leaves the
context unchanged; on success the `tracestate` header is copied verbatim
and the parsed context is attached. -/
def w3cExtract (ctx : Ctx) (car : String → String) : Ctx :=
  let tp := car "traceparent"
  if tp = "" then ctx
  else
    match parseW3CTraceparent tp with
    | .error _ => ctx
    | .ok tc => { ctx with traceCtx := some { tc with traceState := car "tracestate" } }

-- Helper lemmas for the sampler theorems.

theorem fnv1a32_lt (bytes : List Byte) : fnv1a32 bytes < 4294967296 := by
  unfold fnv1a32
  have h : ∀ (l : List Byte) (init : Nat), init < 4294967296 →
      l.foldl (fun h b => ((h ^^^ b.val) * 16777619) % 4294967296) init < 4294967296 := by
    intro l
    induction l with
    | nil => intro init h; simpa using h
    | cons b rest ih =>
      intro init _
      simp only [List.foldl_cons]
      exact ih _ (Nat.mod_lt _ (by norm_num))
  exact h bytes 2166136261 (by norm_num)

theorem clamp01_nonneg (r : ℚ) : 0 ≤ clamp01 r := by
  unfold clamp01
  split_ifs with h1 h2 <;> [rfl; norm_num; linarith]

theorem traceIDRatioSample_one : (traceIDRatioSample 1).threshold = 4294967295 := by
  have hc : clamp01 (1 : ℚ) = 1 := by norm_num [clamp01]
  simp [traceIDRatioSample, hc]

theorem ratioCounterAfter_eq {k : Nat} (h : k < 18446744073709551616) :
    ratioCounterAfter k = k := by
  induction k with
  | zero => rfl
  | succ k ih =>
    unfold ratioCounterAfter
    rw [ih (by omega)]
    exact Nat.mod_eq_of_lt h

/-- A concrete 16-byte trace ID whose 32-bit FNV-1a hash is exactly
`0xFFFFFFFF`, the largest 32-bit value. -/
def maxHashTraceID : TraceID :=
  ⟨[0, 0, 0, 0, 0, 0, 0, 0, 0, 0, 0, 2, 104, 236, 177, 203], by decide⟩

theorem fnv1a32_maxHashTraceID : fnv1a32 maxHashTraceID.val = 4294967295 := by decide

/-- C9: the `TraceIDRatioSampler` decision is a deterministic function of
the construction ratio and the trace ID alone: two samplers built with
the same ratio agree on any two parameter records carrying the same
trace ID (whatever their span names and parent IDs), and `ShouldSample`
reads no mutable state, being exactly the comparison of the trace-ID
hash against the stored threshold, so repeated calls on one instance
return the same boolean. -/
theorem traceIDRatioSampler_deterministic :
    ∀ (r : ℚ) (p1 p2 : SamplingParams), p1.traceID = p2.traceID →
      ((traceIDRatioSample r).shouldSample p1 = (traceIDRatioSample r).shouldSample p2 ∧
        ∀ (s : TraceIDRatioSampler) (q : SamplingParams),
          s.shouldSample q = decide (fnv1a32 q.traceID.val < s.threshold)) := by
  intro r p1 p2 h
  exact ⟨by simp [TraceIDRatioSampler.shouldSample, h], fun s q => rfl⟩

/-- C9 witness: two parameter records sharing a trace ID but with
different names receive the same decision from ratio-1/2 samplers. -/
theorem traceIDRatioSampler_deterministic_witness :
    (traceIDRatioSample (1/2)).shouldSample ⟨TraceID.zero, "a", SpanID.zero⟩ =
      (traceIDRatioSample (1/2)).shouldSample ⟨TraceID.zero, "b", SpanID.zero⟩ :=
  (traceIDRatioSampler_deterministic (1/2) ⟨TraceID.zero, "a", SpanID.zero⟩
    ⟨TraceID.zero, "b", SpanID.zero⟩ rfl).1

/-- C2 counterexample: the claim fails at ratio 1.  The constructor
stores `uint32(1 * 0xFFFFFFFF) = 2^32 - 1`, not `1 * 2^32`, so the trace
ID whose FNV-1a hash is `2^32 - 1` is rejected even though its hash is
strictly below `1 * 2^32` — with `p = 1` not every trace ID is
sampled. -/
theorem traceIDRatio_threshold_counterexample :
    (traceIDRatioSample 1).shouldSample ⟨maxHashTraceID, "", SpanID.zero⟩ = false ∧
    ((fnv1a32 maxHashTraceID.val : ℚ) < 1 * 2 ^ 32) := by
  constructor
  · show decide (fnv1a32 maxHashTraceID.val < (traceIDRatioSample 1).threshold) = false
    rw [fnv1a32_maxHashTraceID, traceIDRatioSample_one]
    decide
  · rw [fnv1a32_maxHashTraceID]
    norm_num

/-- C2 amended: `TraceIDRatioSample(p).ShouldSample(params)` returns true
exactly when the 32-bit FNV-1a hash of the trace-ID bytes is strictly
below `⌊p * (2^32 - 1)⌋` (ratio clamped to `[0,1]`); in particular with
`p = 1` a trace ID is sampled iff its hash is not `2^32 - 1`. -/
theorem traceIDRatio_threshold_amended :
    (∀ (r : ℚ) (params : SamplingParams),
      (traceIDRatioSample r).shouldSample params =
        decide ((fnv1a32 params.traceID.val : ℤ) < ⌊clamp01 r * 4294967295⌋)) ∧
    (∀ params : SamplingParams,
      ((traceIDRatioSample 1).shouldSample params = true ↔
        fnv1a32 params.traceID.val ≠ 4294967295)) := by
  constructor
  · intro r params
    show decide (fnv1a32 params.traceID.val < (⌊clamp01 r * 4294967295⌋).toNat) = _
    rw [decide_eq_decide]
    exact Int.lt_toNat
  · intro params
    have h1 : (traceIDRatioSample 1).shouldSample params =
        decide (fnv1a32 params.traceID.val < 4294967295) := by
      show decide (fnv1a32 params.traceID.val < (traceIDRatioSample 1).threshold) = _
      rw [traceIDRatioSample_one]
    have h2 := fnv1a32_lt params.traceID.val
    rw [h1]
    constructor
    · intro h
      have := of_decide_eq_true h
      omega
    · intro h
      exact decide_eq_true (by omega)

/-- C6 counterexample: the claim fails at ratio `3/8` (exactly
representable in `float64`, so the Go arithmetic is exact here).  The
constructor truncates `0.375 * 100 = 37.5` to threshold 37, while the
claim's `round(p*100)` is 38; hence the 37-th call returns false even
though `37 mod 100 < round(p*100)` holds. -/
theorem ratioSampler_round_counterexample :
    ratioKthShouldSample (ratioThreshold (3/8)) 37 = false ∧
    ((37 : ℤ) % 100 < round ((3/8 : ℚ) * 100)) := by
  have ht : ratioThreshold (3/8) = 37 := by
    have hc : clamp01 ((3 : ℚ)/8) = 3/8 := by norm_num [clamp01]
    have hf : ⌊((3 : ℚ)/8) * 100⌋ = 37 := by
      rw [Int.floor_eq_iff]
      norm_num
    simp [ratioThreshold, hc, hf]
  have hr : round ((3/8 : ℚ) * 100) = 38 := by
    rw [round_eq, Int.floor_eq_iff]
    norm_num
  constructor
  · rw [ht]
    decide
  · rw [hr]
    norm_num

/-- C6 amended: for every ratio `p` (clamped to `[0,1]` at construction)
and every practically reachable call index `k` (the shared `uint64`
counter has not wrapped), the k-th overall call to
`RatioSample(p).ShouldSample` — the first call observing counter value
1 — returns true exactly when `(k mod 100) < ⌊p * 100⌋`, the threshold
being the ratio times 100 truncated (not rounded). -/
theorem ratioSampler_kth_amended :
    ∀ (r : ℚ) (k : Nat), 1 ≤ k → k < 18446744073709551616 →
      ratioKthShouldSample (ratioThreshold r) k =
        decide (k % 100 < (⌊clamp01 r * 100⌋).toNat) := by
  intro r k _ h2
  unfold ratioKthShouldSample ratioThreshold
  rw [ratioCounterAfter_eq h2]

/-- C6 amended witness: at ratio 1/2 the third call is sampled. -/
theorem ratioSampler_kth_amended_witness :
    1 ≤ 3 ∧ ratioKthShouldSample (ratioThreshold (1/2)) 3 = true := by
  refine ⟨by norm_num, ?_⟩
  rw [ratioSampler_kth_amended (1/2) 3 (by norm_num) (by norm_num)]
  have hc : clamp01 ((1 : ℚ)/2) = 1/2 := by norm_num [clamp01]
  have hf : ⌊((1 : ℚ)/2) * 100⌋ = 50 := by
    rw [Int.floor_eq_iff]
    norm_num
  rw [hc, hf]
  decide

/-- C10: a traceparent header whose trace-ID and span-ID segments are all
zeros parses successfully into a `TraceContext` (no error is returned),
and both returned identifiers report `IsValid() = false`, so the
reserved all-zero identifiers can enter a propagation context via
extraction. -/
theorem parse_allzero_header :
    parseW3CTraceparent "00-00000000000000000000000000000000-0000000000000000-01" =
      .ok ⟨TraceID.zero, SpanID.zero, 1, ""⟩ ∧
    TraceID.zero.isValid = false ∧ SpanID.zero.isValid = false :=
  ⟨rfl, rfl, rfl⟩

-- Helper lemmas and concrete spans for the lifecycle theorems.

theorem foldl_apply_ids (opts : List SpanOption) (s : Span) :
    (opts.foldl (fun s o => o.apply s) s).traceID = s.traceID ∧
    (opts.foldl (fun s o => o.apply s) s).parentID = s.parentID ∧
    (opts.foldl (fun s o => o.apply s) s).spanID = s.spanID := by
  induction opts generalizing s with
  | nil => exact ⟨rfl, rfl, rfl⟩
  | cons o rest ih =>
    simp only [List.foldl_cons]
    have h := ih (o.apply s)
    cases o <;> simpa [SpanOption.apply] using h

/-- A nonzero 8-byte span ID used in witnesses. -/
def demoSpanID : SpanID := ⟨[1, 2, 3, 4, 5, 6, 7, 8], by decide⟩

/-- A nonzero 16-byte trace ID used in witnesses. -/
def demoTraceID : TraceID :=
  ⟨[1, 2, 3, 4, 5, 6, 7, 8, 9, 10, 11, 12, 13, 14, 15, 16], by decide⟩

/-- A live sampled span owned by a tracer, not yet ended. -/
def demoLiveSpan : Span :=
  { noopSpan with noop := false, hasTracer := true, sampled := true, traceID := demoTraceID, spanID := demoSpanID }

/-- The same span after its ended flag has been set. -/
def demoEndedSpan : Span := { demoLiveSpan with ended := true }

/-- C3: a span is frozen once ended.  For a non-no-op span, `End()`
leaves the ended flag set; on any span whose ended flag is set, every
mutator (`SetAttribute`, `SetAttributes`, `AddEvent`, `SetStatus`,
`RecordError`) returns the span unchanged and a further `End()` is a
no-op producing no pipeline action — so the end time is stamped exactly
once; one `End()` hands the span to the export pipeline at most once,
and exactly once when the span is sampled (and owned by a tracer). -/
theorem span_frozen_after_end :
    ∀ (s t : Span) (now now2 : Nat) (k : String) (v : AttrValue)
      (attrs eattrs : List Attribute) (en : String) (st : SpanStatus) (msg emsg : String),
    s.noop = false →
    (((s.endSpan now).1.ended = true) ∧
     (s.ended = false → (s.endSpan now).1.endTime = now) ∧
     (t.ended = true →
       t.setAttribute k v = t ∧
       t.setAttributes attrs = t ∧
       t.addEvent en eattrs now2 = t ∧
       t.setStatus st msg = t ∧
       t.recordError (some emsg) now2 = t ∧
       t.endSpan now2 = (t, [])) ∧
     ((s.endSpan now).2.count .exported ≤ 1) ∧
     (s.ended = false → s.sampled = true → s.hasTracer = true →
       (s.endSpan now).2.count .exported = 1)) := by
  intro s t now now2 k v attrs eattrs en st msg emsg hnoop
  have hfrozen : t.ended = true →
      t.setAttribute k v = t ∧ t.setAttributes attrs = t ∧
      t.addEvent en eattrs now2 = t ∧ t.setStatus st msg = t ∧
      t.recordError (some emsg) now2 = t ∧ t.endSpan now2 = (t, []) := by
    intro hend
    refine ⟨?_, ?_, ?_, ?_, ?_, ?_⟩ <;>
      simp [Span.setAttribute, Span.setAttributes, Span.addEvent, Span.setStatus,
        Span.recordError, Span.endSpan, hend]
  refine ⟨?_, ?_, hfrozen, ?_, ?_⟩
  · unfold Span.endSpan
    rcases hs : s.ended with _ | _ <;> (simp [hnoop, hs]; try (split <;> simp))
  · intro hs
    unfold Span.endSpan
    simp only [hnoop, hs, Bool.or_self, Bool.false_eq_true, if_false]
    split <;> simp
  · unfold Span.endSpan
    rcases hs : s.ended with _ | _ <;> (simp [hnoop, hs]; try (split <;> simp))
  · intro hs hsamp htr
    unfold Span.endSpan
    simp [hnoop, hs, hsamp, htr]

/-- C3 witness: ending the concrete live sampled span stamps the ended
flag and exports once; mutating and re-ending the already-ended span
changes nothing. -/
theorem span_frozen_after_end_witness :
    (demoLiveSpan.endSpan 7).1.ended = true ∧
    demoEndedSpan.setAttribute "k" (.str "v") = demoEndedSpan ∧
    demoEndedSpan.endSpan 9 = (demoEndedSpan, []) ∧
    (demoLiveSpan.endSpan 7).2.count .exported = 1 := by
  have h := span_frozen_after_end demoLiveSpan demoEndedSpan 7 9 "k" (.str "v")
    [] [] "e" .unset "m" "err" rfl
  exact ⟨h.1, (h.2.2.1 rfl).1, (h.2.2.1 rfl).2.2.2.2.2, h.2.2.2.2 rfl rfl rfl⟩

/-- C7 counterexample: the claim fails for unsampled spans.  This span
is started from a live tracer (with a never-sampler), then ended; the
pipeline performs zero pool releases — `End()` returns before reaching
`releaseSpan` whenever the span is unsampled, so there is not one pool
release per ended span. -/
theorem end_pool_release_counterexample :
    ((Tracer.start false (fun _ => false) none none "op" noopSpan demoTraceID
        demoSpanID 3 []).endSpan 5).1.ended = true ∧
    ((Tracer.start false (fun _ => false) none none "op" noopSpan demoTraceID
        demoSpanID 3 []).endSpan 5).2.count .released = 0 := by
  constructor <;> rfl

/-- C7 amended: an ended span reaches the pool exactly when it was
sampled and owned by a tracer: in that case the pipeline performs
exactly one export followed by one pool release (in that order), and an
unsampled span is not released (nor exported) at all. -/
theorem end_pool_release_amended :
    ∀ (s : Span) (now : Nat), s.noop = false → s.ended = false →
    ((s.sampled = true → s.hasTracer = true →
        (s.endSpan now).2 = [.exported, .released]) ∧
     (s.sampled = false → (s.endSpan now).2 = [])) := by
  intro s now hnoop hend
  constructor
  · intro hsamp htr
    unfold Span.endSpan
    simp [hnoop, hend, hsamp, htr]
  · intro hsamp
    unfold Span.endSpan
    simp [hnoop, hend, hsamp]

/-- C7 amended witness: the concrete live sampled span is exported then
released; the same span marked unsampled produces no pipeline action. -/
theorem end_pool_release_amended_witness :
    (demoLiveSpan.endSpan 7).2 = [.exported, .released] ∧
    (({ demoLiveSpan with sampled := false }).endSpan 7).2 = [] :=
  ⟨(end_pool_release_amended demoLiveSpan 7 rfl rfl).1 rfl rfl,
   (end_pool_release_amended { demoLiveSpan with sampled := false } 7 rfl rfl).2 rfl⟩

/-- C8: after `Close()` every `Start` call returns the no-op span (not an
error), and on any no-op span every mutator returns the span unchanged
while `End()` produces no pipeline action, so a no-op span is never
delivered to the exporter. -/
theorem closed_tracer_noop :
    ∀ (sampler : SamplingParams → Bool) (ctxSpan : Option Span)
      (ctxTC : Option TraceContext) (name : String) (pooled : Span)
      (genT : TraceID) (genS : SpanID) (now now2 : Nat) (opts : List SpanOption)
      (t : Span) (k : String) (v : AttrValue) (attrs eattrs : List Attribute)
      (en : String) (st : SpanStatus) (msg emsg : String),
    (Tracer.start true sampler ctxSpan ctxTC name pooled genT genS now opts = noopSpan) ∧
    (noopSpan.noop = true) ∧
    (t.noop = true →
      t.setAttribute k v = t ∧
      t.setAttributes attrs = t ∧
      t.addEvent en eattrs now2 = t ∧
      t.setStatus st msg = t ∧
      t.recordError (some emsg) now2 = t ∧
      t.recordError none now2 = t ∧
      t.endSpan now2 = (t, [])) := by
  intro sampler ctxSpan ctxTC name pooled genT genS now now2 opts t k v attrs eattrs
    en st msg emsg
  refine ⟨rfl, rfl, fun hnoop => ?_⟩
  refine ⟨?_, ?_, ?_, ?_, ?_, ?_, ?_⟩ <;>
    simp [Span.setAttribute, Span.setAttributes, Span.addEvent, Span.setStatus,
      Span.recordError, Span.endSpan, hnoop]

/-- C8 witness: a concrete closed-tracer start yields the no-op span,
whose mutators and `End` are inert. -/
theorem closed_tracer_noop_witness :
    Tracer.start true (fun _ => true) none none "w" noopSpan demoTraceID demoSpanID
      0 [] = noopSpan ∧
    noopSpan.setAttribute "k" (.int 1) = noopSpan ∧
    noopSpan.endSpan 4 = (noopSpan, []) := by
  have h := closed_tracer_noop (fun _ => true) none none "w" noopSpan demoTraceID
    demoSpanID 0 4 [] noopSpan "k" (.int 1) [] [] "e" .unset "m" "err"
  exact ⟨h.1, (h.2.2 rfl).1, (h.2.2 rfl).2.2.2.2.2.2⟩

theorem start_open_ids (sampler : SamplingParams → Bool) (ctxSpan : Option Span)
    (ctxTC : Option TraceContext) (name : String) (pooled : Span) (genT : TraceID)
    (genS : SpanID) (now : Nat) (opts : List SpanOption) :
    (Tracer.start false sampler ctxSpan ctxTC name pooled genT genS now opts).traceID =
      (Tracer.startSpanBase ctxSpan ctxTC name pooled genT genS now).traceID ∧
    (Tracer.start false sampler ctxSpan ctxTC name pooled genT genS now opts).parentID =
      (Tracer.startSpanBase ctxSpan ctxTC name pooled genT genS now).parentID ∧
    (Tracer.start false sampler ctxSpan ctxTC name pooled genT genS now opts).spanID =
      (Tracer.startSpanBase ctxSpan ctxTC name pooled genT genS now).spanID :=
  foldl_apply_ids opts (Tracer.startSpanBase ctxSpan ctxTC name pooled genT genS now)

/-- C4: parent linkage of `Tracer.Start` on an open tracer.  Starting
span B from a context holding a span A with a valid trace ID inherits
`B.traceID = A.traceID` and `B.parentID = A.spanID`; starting from an
empty context (no ambient span, no ambient trace context) uses the
freshly generated trace ID — valid whenever the random generator
produced a nonzero value, which is the only output the spec admits — and
leaves the parent ID at its invalid all-zero reset value; and in every
case the span ID is the freshly generated one. -/
theorem start_parent_linkage :
    ∀ (sampler : SamplingParams → Bool) (name : String) (pooled : Span)
      (genT : TraceID) (genS : SpanID) (now : Nat) (opts : List SpanOption)
      (A : Span) (ctxTC : Option TraceContext),
    (A.traceID.isValid = true →
      (Tracer.start false sampler (some A) ctxTC name pooled genT genS now opts).traceID
          = A.traceID ∧
      (Tracer.start false sampler (some A) ctxTC name pooled genT genS now opts).parentID
          = A.spanID) ∧
    (genT.isValid = true →
      (Tracer.start false sampler none none name pooled genT genS now opts).traceID
          = genT ∧
      (Tracer.start false sampler none none name pooled genT genS now opts).traceID.isValid
          = true ∧
      (Tracer.start false sampler none none name pooled genT genS now opts).parentID.isValid
          = false) ∧
    (∀ (ctxSpan : Option Span) (ctxTC2 : Option TraceContext),
      (Tracer.start false sampler ctxSpan ctxTC2 name pooled genT genS now opts).spanID
          = genS) := by
  intro sampler name pooled genT genS now opts A ctxTC
  refine ⟨fun hvalid => ?_, fun hvalid => ?_, fun ctxSpan ctxTC2 => ?_⟩
  · obtain ⟨h1, h2, h3⟩ :=
      start_open_ids sampler (some A) ctxTC name pooled genT genS now opts
    rw [h1, h2]
    unfold Tracer.startSpanBase
    simp [hvalid]
  · obtain ⟨h1, h2, h3⟩ :=
      start_open_ids sampler none none name pooled genT genS now opts
    rw [h1, h2]
    exact ⟨rfl, hvalid, rfl⟩
  · obtain ⟨h1, h2, h3⟩ :=
      start_open_ids sampler ctxSpan ctxTC2 name pooled genT genS now opts
    rw [h3]
    rfl

/-- C4 witness: with a concrete valid parent the child inherits trace ID
and parent ID; from an empty context the concrete generated IDs are
used, the parent ID is invalid, and the fresh span ID is assigned. -/
theorem start_parent_linkage_witness :
    demoLiveSpan.traceID.isValid = true ∧
    (Tracer.start false (fun _ => true) (some demoLiveSpan) none "child" noopSpan
        maxHashTraceID demoSpanID 1 []).traceID = demoLiveSpan.traceID ∧
    (Tracer.start false (fun _ => true) (some demoLiveSpan) none "child" noopSpan
        maxHashTraceID demoSpanID 1 []).parentID = demoLiveSpan.spanID ∧
    (Tracer.start false (fun _ => true) none none "root" noopSpan maxHashTraceID
        demoSpanID 1 []).parentID.isValid = false ∧
    (Tracer.start false (fun _ => true) none none "root" noopSpan maxHashTraceID
        demoSpanID 1 []).spanID = demoSpanID := by
  have h := start_parent_linkage (fun _ => true) "child" noopSpan maxHashTraceID
    demoSpanID 1 [] demoLiveSpan none
  have h2 := start_parent_linkage (fun _ => true) "root" noopSpan maxHashTraceID
    demoSpanID 1 [] demoLiveSpan none
  exact ⟨by decide, (h.1 (by decide)).1, (h.1 (by decide)).2,
    (h2.2.1 (by decide)).2.2, h2.2.2 none none⟩

-- Helper lemmas for the W3C round-trip and extraction theorems.

theorem formatted_data (tc : TraceContext) :
    (tc.formatW3CTraceparent).data =
      '0' :: '0' :: '-' ::
        (hexEncode tc.traceID.val ++ '-' ::
          (hexEncode tc.spanID.val ++ '-' :: encodeByte tc.traceFlags)) := rfl

theorem mem_encodeByte {c : Char} {b : Byte} (h : c ∈ encodeByte b) :
    isLowerHexDigit c = true := by
  have : c ∈ hexEncode [b] := by simpa [hexEncode] using h
  exact mem_hexEncode this

theorem mem_formatted {tc : TraceContext} {c : Char}
    (h : c ∈ (tc.formatW3CTraceparent).data) :
    isLowerHexDigit c = true ∨ c = '-' := by
  rw [formatted_data] at h
  simp only [List.mem_cons, List.mem_append] at h
  rcases h with h | h | h | h | h | h | h
  · exact .inl (by rw [h]; decide)
  · exact .inl (by rw [h]; decide)
  · exact .inr h
  · exact .inl (mem_hexEncode h)
  · exact .inr h
  · exact .inl (mem_hexEncode h)
  · rcases h with h | h
    · exact .inr h
    · exact .inl (mem_encodeByte h)

theorem goToLower_dash : goToLower '-' = '-' := by decide

theorem isGoSpace_dash : isGoSpace '-' = false := by decide

theorem normalize_formatted (tc : TraceContext) :
    normalizeHeader (tc.formatW3CTraceparent).data = (tc.formatW3CTraceparent).data := by
  unfold normalizeHeader
  rw [map_eq_self (fun c hc => ?_), trimSpace_eq_self (fun c hc => ?_)]
  · rcases mem_formatted hc with h | h
    · exact not_space_of_hex h
    · rw [h]; exact isGoSpace_dash
  · rcases mem_formatted hc with h | h
    · exact goToLower_of_hex h
    · rw [h]; exact goToLower_dash

theorem split_formatted (tc : TraceContext) :
    traceparentSplit (tc.formatW3CTraceparent).data =
      some (['0', '0'], hexEncode tc.traceID.val, hexEncode tc.spanID.val,
        encodeByte tc.traceFlags) := by
  have hlen2 : (hexEncode tc.traceID.val).length = 32 := by
    rw [hexEncode_length, tc.traceID.property]
  have hlen3 : (hexEncode tc.spanID.val).length = 16 := by
    rw [hexEncode_length, tc.spanID.property]
  rw [formatted_data]
  set Et := hexEncode tc.traceID.val with hEt
  set Es := hexEncode tc.spanID.val with hEs
  set Ef := encodeByte tc.traceFlags with hEf
  set s : List Char := '0' :: '0' :: '-' :: (Et ++ '-' :: (Es ++ '-' :: Ef)) with hs
  have e3 : s.drop 3 = Et ++ '-' :: (Es ++ '-' :: Ef) := rfl
  have e35 : s.drop 35 = '-' :: (Es ++ '-' :: Ef) := by
    rw [show (35 : Nat) = 3 + 32 from rfl, ← List.drop_drop, e3,
      List.drop_left' hlen2]
  have e36 : s.drop 36 = Es ++ '-' :: Ef := by
    rw [show (36 : Nat) = 35 + 1 from rfl, ← List.drop_drop, e35]
    rfl
  have e52 : s.drop 52 = '-' :: Ef := by
    rw [show (52 : Nat) = 36 + 16 from rfl, ← List.drop_drop, e36,
      List.drop_left' hlen3]
  have e53 : s.drop 53 = Ef := by
    rw [show (53 : Nat) = 52 + 1 from rfl, ← List.drop_drop, e52]
    rfl
  have t32 : (s.drop 3).take 32 = Et := by rw [e3, List.take_left' hlen2]
  have t16 : (s.drop 36).take 16 = Es := by rw [e36, List.take_left' hlen3]
  have len55 : s.length = 55 := by
    rw [hs]
    simp only [List.length_cons, List.length_append, hlen2, hlen3, hEf, encodeByte,
      List.length_cons, List.length_nil]
  have hhex : (s.take 2 ++ (s.drop 3).take 32 ++ (s.drop 36).take 16 ++ s.drop 53).all
      isLowerHexDigit = true := by
    rw [t32, t16, e53, show s.take 2 = ['0', '0'] from rfl]
    rw [List.all_eq_true]
    intro c hc
    simp only [List.mem_append, List.mem_cons, List.not_mem_nil, or_false] at hc
    rcases hc with ((((h | h) | h) | h) | h)
    · rw [h]; decide
    · rw [h]; decide
    · exact mem_hexEncode h
    · exact mem_hexEncode h
    · exact mem_encodeByte h
  show traceparentSplit s = some (['0', '0'], Et, Es, Ef)
  unfold traceparentSplit
  rw [if_pos ⟨len55, rfl, by rw [e35]; rfl, by rw [e52]; rfl, hhex⟩, t32, t16, e53,
    show s.take 2 = ['0', '0'] from rfl]

theorem decodeHex_encodeByte (b : Byte) : decodeHex (encodeByte b) = some [b] := by
  have h := decodeHex_hexEncode [b]
  simpa [hexEncode] using h

theorem decodeHex_total : ∀ (k : Nat) (l : List Char), l.length = 2 * k →
    l.all isLowerHexDigit = true → ∃ bs, decodeHex l = some bs ∧ bs.length = k := by
  intro k
  induction k with
  | zero =>
    intro l hl _
    have : l = [] := List.eq_nil_of_length_eq_zero (by omega)
    subst this
    exact ⟨[], rfl, rfl⟩
  | succ k ih =>
    intro l hl hx
    rcases l with _ | ⟨c1, _ | ⟨c2, rest⟩⟩
    · simp at hl
    · simp at hl
      omega
    · simp only [List.all_cons, Bool.and_eq_true] at hx
      obtain ⟨h1, h2, hrest⟩ := hx
      obtain ⟨bs, hbs, hlen⟩ := ih rest (by simp at hl; omega) hrest
      obtain ⟨v1, hv1⟩ := Option.isSome_iff_exists.mp (hexVal_isSome_of_hex h1)
      obtain ⟨v2, hv2⟩ := Option.isSome_iff_exists.mp (hexVal_isSome_of_hex h2)
      refine ⟨⟨16 * v1.val + v2.val, by
        have hb1 := v1.isLt
        have hb2 := v2.isLt
        omega⟩ :: bs, ?_, by simp [hlen]⟩
      simp only [decodeHex]
      rw [hv1, hv2, hbs]

theorem traceparentSplit_some_facts {s g1 g2 g3 g4 : List Char}
    (h : traceparentSplit s = some (g1, g2, g3, g4)) :
    g2.length = 32 ∧ g3.length = 16 ∧ g4.length = 2 ∧
    g2.all isLowerHexDigit = true ∧ g3.all isLowerHexDigit = true ∧
    g4.all isLowerHexDigit = true := by
  unfold traceparentSplit at h
  split_ifs at h with hc
  · obtain ⟨hl, hd2, hd35, hd52, hall⟩ := hc
    simp only [Option.some.injEq, Prod.mk.injEq] at h
    obtain ⟨e1, e2, e3, e4⟩ := h
    subst e1
    subst e2
    subst e3
    subst e4
    simp only [List.all_append, Bool.and_eq_true] at hall
    refine ⟨?_, ?_, ?_, hall.1.1.2, hall.1.2, hall.2⟩
    · simp only [List.length_take, List.length_drop, hl]
      decide
    · simp only [List.length_take, List.length_drop, hl]
      decide
    · simp only [List.length_drop, hl]

/-- C1: formatting any `TraceContext` with a valid trace ID and span ID as
a W3C traceparent and parsing the result succeeds and reproduces the same
trace ID, span ID and flags byte — hence the same sampled flag (the
trace state is not part of the traceparent header and comes back
empty). -/
theorem w3c_roundtrip :
    ∀ (tid : TraceID) (sid : SpanID) (flags : Byte) (state : String),
    tid.isValid = true → sid.isValid = true →
    (parseW3CTraceparent (TraceContext.formatW3CTraceparent ⟨tid, sid, flags, state⟩) =
      .ok ⟨tid, sid, flags, ""⟩ ∧
     TraceContext.isSampled ⟨tid, sid, flags, ""⟩ =
       TraceContext.isSampled ⟨tid, sid, flags, state⟩) := by
  intro tid sid flags state hv1 hv2
  refine ⟨?_, rfl⟩
  show parseW3CTraceparentChars
    (TraceContext.formatW3CTraceparent ⟨tid, sid, flags, state⟩).data = _
  unfold parseW3CTraceparentChars
  rw [normalize_formatted ⟨tid, sid, flags, state⟩,
    split_formatted ⟨tid, sid, flags, state⟩]
  split
  · next heq0 => simp at heq0
  · next g1 g2 g3 g4 heq0 =>
    simp only [Option.some.injEq, Prod.mk.injEq] at heq0
    obtain ⟨e1, e2, e3, e4⟩ := heq0
    subst e1
    subst e2
    subst e3
    subst e4
    rw [if_neg (by simp)]
    split
    · next heq => simp [decodeHex_hexEncode] at heq
    · next tb heq =>
      rw [decodeHex_hexEncode] at heq
      obtain rfl : tb = tid.val := by simpa using heq.symm
      rw [dif_pos tid.property]
      split
      · next heq2 => simp [decodeHex_hexEncode] at heq2
      · next sb heq2 =>
        rw [decodeHex_hexEncode] at heq2
        obtain rfl : sb = sid.val := by simpa using heq2.symm
        rw [dif_pos sid.property]
        split
        · next heq3 => simp [decodeHex_encodeByte] at heq3
        · next fb heq3 =>
          rw [decodeHex_encodeByte] at heq3
          obtain rfl : fb = [flags] := by simpa using heq3.symm
          rfl

/-- C1 witness: a concrete valid trace ID, span ID and flags byte
round-trip through format and parse. -/
theorem w3c_roundtrip_witness :
    demoTraceID.isValid = true ∧ demoSpanID.isValid = true ∧
    parseW3CTraceparent
        (TraceContext.formatW3CTraceparent ⟨demoTraceID, demoSpanID, 1, "s"⟩) =
      .ok ⟨demoTraceID, demoSpanID, 1, ""⟩ :=
  ⟨by decide, by decide,
    (w3c_roundtrip demoTraceID demoSpanID 1 "s" (by decide) (by decide)).1⟩

theorem parse_error_characterization (l : List Char) :
    (∃ e, parseW3CTraceparentChars l = .error e) ↔
      (traceparentSplit (normalizeHeader l) = none ∨
        ∃ g1 g2 g3 g4, traceparentSplit (normalizeHeader l) = some (g1, g2, g3, g4) ∧
          g1 ≠ ['0', '0']) := by
  cases hsplit : traceparentSplit (normalizeHeader l) with
  | none =>
    unfold parseW3CTraceparentChars
    rw [hsplit]
    simp
  | some g =>
    obtain ⟨g1, g2, g3, g4⟩ := g
    obtain ⟨hl2, hl3, hl4, hx2, hx3, hx4⟩ := traceparentSplit_some_facts hsplit
    by_cases hg : g1 = ['0', '0']
    · subst hg
      obtain ⟨tb, htb, htbl⟩ := decodeHex_total 16 g2 (by omega) hx2
      obtain ⟨sb, hsb, hsbl⟩ := decodeHex_total 8 g3 (by omega) hx3
      obtain ⟨fb, hfb, hfbl⟩ := decodeHex_total 1 g4 (by omega) hx4
      have hok : parseW3CTraceparentChars l =
          .ok ⟨⟨tb, htbl⟩, ⟨sb, hsbl⟩, fb.headD 0, ""⟩ := by
        unfold parseW3CTraceparentChars
        rw [hsplit]
        split
        · next heq0 => simp at heq0
        · next g1' g2' g3' g4' heq0 =>
          simp only [Option.some.injEq, Prod.mk.injEq] at heq0
          obtain ⟨e1, e2, e3, e4⟩ := heq0
          subst e1
          subst e2
          subst e3
          subst e4
          rw [if_neg (by simp)]
          split
          · next heq => rw [htb] at heq; cases heq
          · next tb0 heq =>
            rw [htb] at heq
            obtain rfl : tb0 = tb := by simpa using heq.symm
            rw [dif_pos htbl]
            split
            · next heq2 => rw [hsb] at heq2; cases heq2
            · next sb0 heq2 =>
              rw [hsb] at heq2
              obtain rfl : sb0 = sb := by simpa using heq2.symm
              rw [dif_pos hsbl]
              split
              · next heq3 => rw [hfb] at heq3; cases heq3
              · next fb0 heq3 =>
                rw [hfb] at heq3
                obtain rfl : fb0 = fb := by simpa using heq3.symm
                rw [if_pos hfbl]
      rw [hok]
      simp
    · have herr : parseW3CTraceparentChars l = .error .invalidContext := by
        unfold parseW3CTraceparentChars
        rw [hsplit]
        split
        · next heq0 => simp at heq0
        · next g1' g2' g3' g4' heq0 =>
          simp only [Option.some.injEq, Prod.mk.injEq] at heq0
          obtain ⟨e1, e2, e3, e4⟩ := heq0
          subst e1
          subst e2
          subst e3
          subst e4
          rw [if_pos hg]
      rw [herr]
      simp only [Option.some.injEq, Prod.mk.injEq]
      constructor
      · intro _
        exact .inr ⟨g1, g2, g3, g4, ⟨rfl, rfl, rfl, rfl⟩, hg⟩
      · intro _
        exact ⟨.invalidContext, rfl⟩

/-- C5: `W3CPropagator.Extract` is fail-open: it returns the incoming
context unchanged when the `traceparent` header is absent (empty), and
likewise whenever the header fails to parse; and a header fails to parse
exactly when, after lower-casing and trimming, it does not match the
fixed version-traceid-spanid-flags hex grammar or its version group is
not `00`.  No error is surfaced to the caller in any case (extraction is
a total function into contexts). -/
theorem w3c_extract_fail_open :
    ∀ (ctx : Ctx) (car : String → String),
    ((car "traceparent") = "" → w3cExtract ctx car = ctx) ∧
    (∀ e, parseW3CTraceparent (car "traceparent") = .error e →
      w3cExtract ctx car = ctx) ∧
    (∀ hdr : String,
      (∃ e, parseW3CTraceparent hdr = .error e) ↔
        (traceparentSplit (normalizeHeader hdr.data) = none ∨
          ∃ g1 g2 g3 g4,
            traceparentSplit (normalizeHeader hdr.data) = some (g1, g2, g3, g4) ∧
              g1 ≠ ['0', '0'])) := by
  intro ctx car
  refine ⟨?_, ?_, fun hdr => parse_error_characterization hdr.data⟩
  · intro h
    unfold w3cExtract
    rw [if_pos h]
  · intro e he
    unfold w3cExtract
    by_cases htp : car "traceparent" = ""
    · rw [if_pos htp]
    · rw [if_neg htp, he]

/-- C5 witness: a carrier with an empty traceparent and one with a
malformed traceparent both leave a concrete context unchanged, and the
malformed header is characterised by a failed grammar match. -/
theorem w3c_extract_fail_open_witness :
    w3cExtract ⟨none, none⟩ (fun _ => "") = ⟨none, none⟩ ∧
    w3cExtract ⟨none, none⟩ (fun _ => "bogus") = ⟨none, none⟩ := by
  have h1 := (w3c_extract_fail_open ⟨none, none⟩ (fun _ => "")).1 rfl
  have h2 := (w3c_extract_fail_open ⟨none, none⟩ (fun _ => "bogus")).2.1
    .invalidContext (by rfl)
  exact ⟨h1, h2⟩

end Lumen
